import Mathlib

/-!
Verification of atom/renderer/atom_sandboxed_renderer_client.cc.

The file shallowly embeds the sandboxed renderer client:
the builtin-module cache (GetModuleCache / GetBinding), the virtual
environment namespace interceptors (EnvGetter, EnvSetter, EnvQuery,
EnvDeleter, EnvEnumerator), the preload-script wrapper built in
DidCreateScriptContext, and the private-slot IPC callback dispatch
(InvokeIpcCallback / WillReleaseScriptContext).

V8 object identity is modelled by natural-number object ids; the OS
environment table (and the V8 hidden module cache object) by association
lists from strings to values; a V8 property-callback return slot by
Option (none means the handler set no return value).
-/

namespace Sandbox

/-- Association-list lookup, first match wins (models map / env lookup). -/
def lookupAssoc {α : Type} (l : List (String × α)) (k : String) : Option α :=
  match l with
  | [] => none
  | (k', v) :: rest => if k' = k then some v else lookupAssoc rest k

/-- Association-list update: overwrite the first binding of the key, or
append one (models v8 Object Set and SetEnvironmentVariableW). -/
def setAssoc {α : Type} (l : List (String × α)) (k : String) (v : α) :
    List (String × α) :=
  match l with
  | [] => [(k, v)]
  | (k', v') :: rest =>
      if k' = k then (k, v) :: rest else (k', v') :: setAssoc rest k v

/-- Association-list removal of every binding of the key (models unsetenv
and SetEnvironmentVariableW with a null value). -/
def unsetAssoc {α : Type} (l : List (String × α)) (k : String) :
    List (String × α) :=
  match l with
  | [] => []
  | (k', v) :: rest =>
      if k' = k then unsetAssoc rest k else (k', v) :: unsetAssoc rest k

/-- Number of occurrences of a string in a list. -/
def countOcc (l : List String) (k : String) : Nat :=
  match l with
  | [] => 0
  | x :: rest => (if x = k then 1 else 0) + countOcc rest k

/-- The OS environment table: names to values. -/
abbrev Env : Type := List (String × String)

/-- A v8::Name is either a String or a Symbol (so IsString and IsSymbol
are complementary). -/
inductive V8Name where
  | str (s : String)
  | symbol (id : Nat)
deriving DecidableEq

/-- The C++ test key[0] == '=' on a std::basic_string: element 0 of an
empty string is the null character, which is not '='. -/
def startsWithEq (key : String) : Bool :=
  match key.data with
  | [] => false
  | c :: _ => c = '='

/-- A value set on a PropertyCallbackInfo of v8::Value by EnvGetter. -/
inductive GetReturn where
  | undef
  | str (s : String)
deriving DecidableEq

/-- EnvGetter, POSIX branch: a Symbol property sets the return value to
undefined; otherwise getenv is consulted, its value (possibly the empty
string) is returned when present, and no return value is set when absent. -/
def EnvGetter (env : Env) (property : V8Name) : Option GetReturn :=
  match property with
  | .symbol _ => some .undef
  | .str key => (lookupAssoc env key).map GetReturn.str

/-- EnvSetter, _WIN32 branch: keys whose first character is '=' are
read-only, so the OS write is skipped for them; whether it worked or not,
the handler always returns the given value. Result: (new OS environment,
value set on the return slot). -/
def EnvSetter (env : Env) (key value : String) : Env × String :=
  (if startsWithEq key then env else setAssoc env key value, value)

/-- v8::ReadOnly property attribute. -/
def v8ReadOnly : Nat := 1

/-- v8::DontEnum property attribute. -/
def v8DontEnum : Nat := 2

/-- v8::DontDelete property attribute. -/
def v8DontDelete : Nat := 4

/-- EnvQuery, _WIN32 branch: rc starts at -1 (not found); only a String
property is looked up in the OS table; when the OS reports it exists rc
becomes 0, upgraded to ReadOnly|DontDelete|DontEnum when the key starts
with '='; the return slot is set only when rc is not -1 (modelled by
Option: none means no return value was set). -/
def EnvQuery (env : Env) (property : V8Name) : Option Nat :=
  match property with
  | .symbol _ => none
  | .str key =>
      if (lookupAssoc env key).isSome then
        if startsWithEq key then some (v8ReadOnly ||| v8DontDelete ||| v8DontEnum)
        else some 0
      else none

/-- EnvDeleter: the removal is forwarded to the OS only for a String
property (both the unsetenv and the SetEnvironmentVariableW branch); the
return slot is always set to true. Result: (new OS environment, reported
boolean). -/
def EnvDeleter (env : Env) (property : V8Name) : Env × Bool :=
  match property with
  | .str key => (unsetAssoc env key, true)
  | .symbol _ => (env, true)

/-- NODE_PUSH_VAL_TO_ARRAY_MAX: size of the argv transfer buffer used by
EnvEnumerator. -/
def NODE_PUSH_VAL_TO_ARRAY_MAX : Nat := 8

/-- The key of a raw environment-block entry: the portion before the
first '=' (wcschr), or the whole entry when it has no '='. -/
def keyOf (entry : String) : String :=
  entry.takeWhile (fun c => c ≠ '=')

/-- The loop of EnvEnumerator, _WIN32 branch. envarr is the result array,
buf the argv buffer (its length is idx). An empty entry terminates the
walk (the block is double-null terminated); an entry starting with '=' is
a hidden variable and is skipped; otherwise the key before the first '='
is pushed, and the buffer is flushed into the array when it reaches
NODE_PUSH_VAL_TO_ARRAY_MAX, and once more at the end if non-empty. -/
def enumGo (entries : List String) (envarr buf : List String) : List String :=
  match entries with
  | [] => if 0 < buf.length then envarr ++ buf else envarr
  | p :: rest =>
      if p = "" then (if 0 < buf.length then envarr ++ buf else envarr)
      else if startsWithEq p then enumGo rest envarr buf
      else
        let buf' := buf ++ [keyOf p]
        if NODE_PUSH_VAL_TO_ARRAY_MAX ≤ buf'.length then
          enumGo rest (envarr ++ buf') []
        else enumGo rest envarr buf'

/-- EnvEnumerator, _WIN32 branch, on a raw environment block given as the
list of its double-null-separated entries. -/
def EnvEnumerator (block : List String) : List String :=
  enumGo block [] []

/-- The sandboxed context's global object, as far as GetBinding sees it:
the hidden kModuleCacheKey value, absent until first created. Cached
exports objects are represented by their object ids. -/
structure SandboxGlobal where
  moduleCache : Option (List (String × Nat))
deriving DecidableEq

/-- GetModuleCache: read the hidden native-module-cache object off the
context's global, creating and storing a fresh empty one when absent. -/
def GetModuleCache (g : SandboxGlobal) : List (String × Nat) × SandboxGlobal :=
  match g.moduleCache with
  | some cache => (cache, g)
  | none => ([], { moduleCache := some [] })

/-- The per-context state GetBinding threads: the context's global (with
its hidden module cache), a fresh-object-id counter (v8 Object::New), and
the log of builtin-registry register-function invocations. -/
structure IsolateState where
  global : SandboxGlobal
  nextId : Nat
  regInvocations : List String
deriving DecidableEq

/-- The module cache as GetModuleCache would materialize it. -/
def moduleCacheOf (st : IsolateState) : List (String × Nat) :=
  (GetModuleCache st.global).1

/-- snprintf into the char errmsg[1024] buffer: at most 1023 characters
are written before the terminating null, so the formatted message is cut
to its first 1023 characters. -/
def snprintf1024 (s : String) : String :=
  String.mk (s.data.take 1023)

/-- GetBinding: look the key up in the hidden per-context module cache and
return the cached exports object on a hit; otherwise consult the builtin
module registry, throwing the message snprintf produces into its
char[1024] buffer from "No such module: %s" when it has no such key; on a
registry hit allocate a fresh exports object, invoke the module's context
register function once, store the exports in the cache and return them.
The registry is modelled by its membership predicate. -/
def GetBinding (registry : String → Bool) (moduleKey : String)
    (st : IsolateState) : Except String Nat × IsolateState :=
  let cg := GetModuleCache st.global
  let st1 : IsolateState := { st with global := cg.2 }
  match lookupAssoc cg.1 moduleKey with
  | some exports => (.ok exports, st1)
  | none =>
      if registry moduleKey then
        let exports := st1.nextId
        (.ok exports,
         { global := { moduleCache := some (setAssoc cg.1 moduleKey exports) },
           nextId := exports + 1,
           regInvocations := st1.regInvocations ++ [moduleKey] })
      else (.error (snprintf1024 ("No such module: " ++ moduleKey)), st1)

/-- The state of a context in which no GetBinding call has run yet: no
hidden cache object, no registry invocation. -/
def initState : IsolateState :=
  { global := { moduleCache := none }, nextId := 0, regInvocations := [] }

/-- Run a sequence of GetBinding calls for the given keys, discarding the
returned exports. -/
def runCalls (registry : String → Bool) (keys : List String)
    (st : IsolateState) : IsolateState :=
  match keys with
  | [] => st
  | k :: rest => runCalls registry rest (GetBinding registry k st).2

/-- A JavaScript value as the preload-invocation model needs it: the
binding namespace object built in DidCreateScriptContext, a string, or
undefined. -/
inductive JsVal where
  | undefined
  | strv (s : String)
  | bindingObj
deriving DecidableEq

/-- What DidCreateScriptContext did: whether the preload wrapper ran,
whether the binding namespace object was constructed, and the argument
list the wrapper function was called with (none when it was not called). -/
structure DidCreateOutcome where
  ranPreload : Bool
  bindingConstructed : Bool
  callArgs : Option (List JsVal)
deriving DecidableEq

/-- First line of the preload wrapper source text built in
DidCreateScriptContext. -/
def wrapperHead : String := "(function(binding, preloadPath, require) \x7b\n"

/-- Closing text of the preload wrapper source. -/
def wrapperTail : String := "\n\x7d)"

/-- The preload wrapper source: the bundle body wrapped in a function
taking (binding, preloadPath, require). -/
def preloadWrapper (bundle : String) : String :=
  wrapperHead ++ bundle ++ wrapperTail

/-- Split a character list at every comma. -/
def splitComma (l : List Char) : List (List Char) :=
  match l with
  | [] => [[]]
  | c :: rest =>
      if c = ',' then [] :: splitComma rest
      else
        match splitComma rest with
        | [] => [[c]]
        | h :: t => (c :: h) :: t

/-- The parameter names a wrapper source of the above shape declares: the
text between "(function(" and the first ')', split at commas, with
leading spaces removed. -/
def paramsOfWrapper (w : String) : List String :=
  (splitComma ((w.data.takeWhile (fun c => c ≠ ')')).drop 10)).map
    (fun cs => String.mk (cs.dropWhile (fun c => c = ' ')))

/-- JavaScript call semantics for a positional parameter: parameter i of
the callee receives argument i, or undefined when fewer arguments were
passed. -/
def bindParam (args : List JsVal) (i : Nat) : JsVal :=
  args.getD i .undefined

/-- DidCreateScriptContext: return early (no preload, no binding
namespace) unless the frame is the main frame and a preload script path
is configured; otherwise compile the wrapper, build and initialize the
binding object, and call the wrapper function with the two arguments
(binding, preloadScript). -/
def DidCreateScriptContext (isMainFrame : Bool) (preloadScript : String) :
    DidCreateOutcome :=
  if !isMainFrame then ⟨false, false, none⟩
  else if preloadScript = "" then ⟨false, false, none⟩
  else ⟨true, true, some [JsVal.bindingObj, JsVal.strv preloadScript]⟩

/-- The object stored under the private ipcNative slot, with its named
properties; property values are function ids (looked up with JS Get
semantics: absent means undefined). -/
structure ChannelObj where
  props : List (String × Nat)
deriving DecidableEq

/-- A value found in the private slot: either some non-object value or an
object holding the registered callbacks. -/
inductive SlotValue where
  | nonObject (tag : Nat)
  | object (o : ChannelObj)
deriving DecidableEq

/-- A sandboxed context, as InvokeIpcCallback sees it: the value stored
on the global object under the private kIpcKey, if any. -/
structure SandboxContext where
  ipcSlot : Option SlotValue
deriving DecidableEq

/-- The observable outcome of InvokeIpcCallback: either nothing happened,
or the value found under the callback name was called with the given
argument list (its return value is ignored, so it is not recorded). -/
inductive InvokeOutcome where
  | noop
  | called (fn : Option Nat) (args : List JsVal)
deriving DecidableEq

/-- InvokeIpcCallback: read the private ipcNative slot off the context's
global object; when it is absent or not an object, return silently;
otherwise get the property named callbackName off it and call that value
with the given arguments, ignoring the result. -/
def InvokeIpcCallback (ctx : SandboxContext) (callbackName : String)
    (args : List JsVal) : InvokeOutcome :=
  match ctx.ipcSlot with
  | none => .noop
  | some (.nonObject _) => .noop
  | some (.object o) => .called (lookupAssoc o.props callbackName) args

/-- WillReleaseScriptContext: for a non-main frame, return early without
attempting any callback (none); for the main frame, invoke the onExit
callback with no arguments. -/
def WillReleaseScriptContext (isMainFrame : Bool) (ctx : SandboxContext) :
    Option InvokeOutcome :=
  if !isMainFrame then none
  else some (InvokeIpcCallback ctx "onExit" [])

/-- The context state once GetModuleCache has materialized the hidden
cache object on the global (the identity when it already existed). -/
def normSt (st : IsolateState) : IsolateState :=
  { st with global := { moduleCache := some (moduleCacheOf st) } }

/-- Invariant of the module cache over any sequence of GetBinding calls:
every key's register function has been invoked at most once, a key whose
register function has run is cached, and only registry keys are cached. -/
def BindingInv (registry : String → Bool) (st : IsolateState) : Prop :=
  ∀ k, countOcc st.regInvocations k ≤ 1 ∧
    (1 ≤ countOcc st.regInvocations k →
      (lookupAssoc (moduleCacheOf st) k).isSome = true) ∧
    ((lookupAssoc (moduleCacheOf st) k).isSome = true → registry k = true)

/-- Number of occurrences of a character in a character list. -/
def countChar (l : List Char) (c : Char) : Nat :=
  match l with
  | [] => 0
  | x :: rest => (if x = c then 1 else 0) + countChar rest c

/-- A module key of 1008 characters: one more than the 1007 characters of
it that fit into the error buffer after the 16-character message head. -/
def longKey : String :=
  String.mk (List.replicate 1008 'a')

end Sandbox

namespace Sandbox

theorem lookupAssoc_setAssoc_self {α : Type} (l : List (String × α))
    (k : String) (v : α) : lookupAssoc (setAssoc l k v) k = some v := by
  induction l with
  | nil => simp [setAssoc, lookupAssoc]
  | cons p rest ih =>
      obtain ⟨k', v'⟩ := p
      by_cases h : k' = k
      · simp [setAssoc, h, lookupAssoc]
      · simp [setAssoc, h, lookupAssoc, ih]

theorem lookupAssoc_setAssoc_ne {α : Type} (l : List (String × α))
    (k k' : String) (v : α) (h : k' ≠ k) :
    lookupAssoc (setAssoc l k v) k' = lookupAssoc l k' := by
  induction l with
  | nil => simp [setAssoc, lookupAssoc, Ne.symm h]
  | cons p rest ih =>
      obtain ⟨k0, v0⟩ := p
      by_cases h0 : k0 = k
      · subst h0
        simp [setAssoc, lookupAssoc, Ne.symm h]
      · simp [setAssoc, h0, lookupAssoc, ih]

theorem lookupAssoc_unsetAssoc {α : Type} (l : List (String × α))
    (k : String) : lookupAssoc (unsetAssoc l k) k = none := by
  induction l with
  | nil => rfl
  | cons p rest ih =>
      obtain ⟨k', v⟩ := p
      by_cases h : k' = k
      · simp [unsetAssoc, h, ih]
      · simp [unsetAssoc, h, lookupAssoc, ih]

theorem countOcc_append_self (l : List String) (k : String) :
    countOcc (l ++ [k]) k = countOcc l k + 1 := by
  induction l with
  | nil => simp [countOcc]
  | cons x rest ih =>
      by_cases h : x = k
      · simp [countOcc, h, ih]
        omega
      · simp [countOcc, h, ih]

theorem countOcc_append_ne (l : List String) (k k' : String) (h : k' ≠ k) :
    countOcc (l ++ [k]) k' = countOcc l k' := by
  induction l with
  | nil => simp [countOcc, Ne.symm h]
  | cons x rest ih => by_cases hx : x = k' <;> simp [countOcc, hx, ih]

theorem moduleCacheOf_normSt (st : IsolateState) :
    moduleCacheOf (normSt st) = moduleCacheOf st := rfl

theorem normSt_normSt (st : IsolateState) : normSt (normSt st) = normSt st := rfl

theorem moduleCacheOf_mk (c : List (String × Nat)) (n : Nat)
    (inv : List String) : moduleCacheOf ⟨⟨some c⟩, n, inv⟩ = c := rfl

end Sandbox

namespace Sandbox

theorem getBinding_eq (registry : String → Bool) (k : String)
    (st : IsolateState) :
    GetBinding registry k st =
      match lookupAssoc (moduleCacheOf st) k with
      | some e => (Except.ok e, normSt st)
      | none =>
          if registry k then
            (Except.ok st.nextId,
             ⟨⟨some (setAssoc (moduleCacheOf st) k st.nextId)⟩,
              st.nextId + 1, st.regInvocations ++ [k]⟩)
          else (Except.error (snprintf1024 ("No such module: " ++ k)),
                normSt st) := by
  obtain ⟨⟨mc⟩, n, inv⟩ := st
  cases mc with
  | none =>
      simp [GetBinding, GetModuleCache, moduleCacheOf, normSt, lookupAssoc]
  | some c =>
      cases hl : lookupAssoc c k with
      | none =>
          simp [GetBinding, GetModuleCache, moduleCacheOf, normSt, hl]
      | some e =>
          simp [GetBinding, GetModuleCache, moduleCacheOf, normSt, hl]

theorem bindingInv_init (registry : String → Bool) :
    BindingInv registry initState := by
  intro k
  refine ⟨?_, ?_, ?_⟩ <;>
    simp [initState, countOcc, moduleCacheOf, GetModuleCache, lookupAssoc]

theorem bindingInv_step (registry : String → Bool) (k : String)
    (st : IsolateState) (h : BindingInv registry st) :
    BindingInv registry (GetBinding registry k st).2 := by
  rw [getBinding_eq]
  cases hl : lookupAssoc (moduleCacheOf st) k with
  | some e =>
      intro k'
      have hk' := h k'
      simpa [normSt, moduleCacheOf_normSt] using hk'
  | none =>
      cases hreg : registry k with
      | false =>
          simp only [Bool.false_eq_true, if_false]
          intro k'
          have hk' := h k'
          simpa [normSt, moduleCacheOf_normSt] using hk'
      | true =>
          simp only [if_true]
          intro k'
          have hk' := h k'
          by_cases hkk : k' = k
          · subst hkk
            have hzero : countOcc st.regInvocations k' = 0 := by
              rcases Nat.eq_zero_or_pos (countOcc st.regInvocations k') with h0 | h1
              · exact h0
              · have := hk'.2.1 h1
                rw [hl] at this
                simp at this
            constructor
            · simp [countOcc_append_self, hzero]
            constructor
            · intro _
              simp [moduleCacheOf, GetModuleCache, lookupAssoc_setAssoc_self]
            · intro _
              exact hreg
          · constructor
            · simpa [countOcc_append_ne st.regInvocations k k' hkk] using hk'.1
            constructor
            · intro h1
              rw [countOcc_append_ne st.regInvocations k k' hkk] at h1
              have h2 := hk'.2.1 h1
              rw [moduleCacheOf_mk,
                lookupAssoc_setAssoc_ne (moduleCacheOf st) k k' st.nextId hkk]
              exact h2
            · intro hsome
              refine hk'.2.2 ?_
              rw [moduleCacheOf_mk,
                lookupAssoc_setAssoc_ne (moduleCacheOf st) k k' st.nextId hkk]
                at hsome
              exact hsome

theorem bindingInv_runCalls (registry : String → Bool) (keys : List String) :
    ∀ st : IsolateState, BindingInv registry st →
      BindingInv registry (runCalls registry keys st) := by
  induction keys with
  | nil => intro st h; exact h
  | cons k rest ih =>
      intro st h
      exact ih _ (bindingInv_step registry k st h)

end Sandbox

namespace Sandbox

theorem string_append_empty (s : String) : s ++ "" = s := by
  cases s with
  | mk d =>
      show String.mk (d ++ []) = String.mk d
      rw [List.append_nil]

theorem string_data_append (s t : String) :
    (s ++ t).data = s.data ++ t.data := rfl

/-- Claim C1: two successive GetBinding calls for the same key in the same
context return the identical exports object; a successful call leaves the
exports stored in the per-context module cache; and over any sequence of
GetBinding calls from a fresh context, the builtin-registry entry of each
key is invoked at most once. -/
theorem getBinding_memoized (registry : String → Bool) (k : String)
    (st : IsolateState) (e : Nat) (st' : IsolateState)
    (h : GetBinding registry k st = (Except.ok e, st')) :
    GetBinding registry k st' = (Except.ok e, st') ∧
    lookupAssoc (moduleCacheOf st') k = some e ∧
    (∀ keys : List String,
      countOcc (runCalls registry keys initState).regInvocations k ≤ 1) := by
  have hcount : ∀ keys : List String,
      countOcc (runCalls registry keys initState).regInvocations k ≤ 1 :=
    fun keys =>
      ((bindingInv_runCalls registry keys initState (bindingInv_init registry)) k).1
  rw [getBinding_eq] at h
  cases hl : lookupAssoc (moduleCacheOf st) k with
  | some e0 =>
      rw [hl] at h
      simp only [Prod.mk.injEq, Except.ok.injEq] at h
      obtain ⟨he, hst⟩ := h
      subst he
      subst hst
      refine ⟨?_, ?_, hcount⟩
      · rw [getBinding_eq]
        simp only [moduleCacheOf_normSt, hl, normSt_normSt]
      · simp only [moduleCacheOf_normSt, hl]
  | none =>
      rw [hl] at h
      cases hreg : registry k with
      | false =>
          rw [hreg] at h
          simp at h
      | true =>
          rw [hreg] at h
          simp only [if_true, Prod.mk.injEq, Except.ok.injEq] at h
          obtain ⟨he, hst⟩ := h
          subst he
          subst hst
          refine ⟨?_, ?_, hcount⟩
          · rw [getBinding_eq]
            simp only [moduleCacheOf_mk, lookupAssoc_setAssoc_self]
            rfl
          · simp only [moduleCacheOf_mk, lookupAssoc_setAssoc_self]

/-- Witness for getBinding_memoized: a registry containing only "m", first
call from a fresh context. -/
theorem getBinding_memoized_witness :
    GetBinding (fun s => s == "m") "m" initState
        = (Except.ok 0, ⟨⟨some [("m", 0)]⟩, 1, ["m"]⟩) ∧
    (GetBinding (fun s => s == "m") "m" ⟨⟨some [("m", 0)]⟩, 1, ["m"]⟩
        = (Except.ok 0, ⟨⟨some [("m", 0)]⟩, 1, ["m"]⟩) ∧
     lookupAssoc (moduleCacheOf ⟨⟨some [("m", 0)]⟩, 1, ["m"]⟩) "m" = some 0 ∧
     (∀ keys : List String,
       countOcc (runCalls (fun s => s == "m") keys initState).regInvocations
         "m" ≤ 1)) :=
  ⟨rfl, getBinding_memoized (fun s => s == "m") "m" initState 0
      ⟨⟨some [("m", 0)]⟩, 1, ["m"]⟩ rfl⟩

theorem snprintf1024_short (s : String) (h : s.length ≤ 1023) :
    snprintf1024 s = s := by
  cases s with
  | mk d =>
      show String.mk (d.take 1023) = String.mk d
      rw [List.take_of_length_le h]

theorem countChar_append (l1 l2 : List Char) (c : Char) :
    countChar (l1 ++ l2) c = countChar l1 c + countChar l2 c := by
  induction l1 with
  | nil => simp [countChar]
  | cons x rest ih => simp [countChar, ih, Nat.add_assoc]

theorem countChar_replicate (n : Nat) (c : Char) :
    countChar (List.replicate n c) c = n := by
  induction n with
  | zero => rfl
  | succ m ih =>
      simp [List.replicate_succ, countChar, ih]
      omega

/-- Counterexample to claim C2 as stated: for the 1008-character key
longKey, absent from the empty registry, GetBinding does raise the error,
but snprintf keeps only what fits its char[1024] buffer - the message
head plus the first 1007 characters of the key - so the thrown message
does not contain the requested key verbatim. -/
theorem getBinding_missing_truncates :
    (GetBinding (fun _ => false) longKey initState).1
      = Except.error (snprintf1024 ("No such module: " ++ longKey)) ∧
    ¬ (∃ pre post : String,
        snprintf1024 ("No such module: " ++ longKey)
          = pre ++ longKey ++ post) := by
  constructor
  · rfl
  · rintro ⟨pre, post, h⟩
    have hd := congrArg String.data h
    rw [string_data_append, string_data_append] at hd
    have hc := congrArg (fun l => countChar l 'a') hd
    simp only [countChar_append] at hc
    have h1 : countChar (snprintf1024 ("No such module: " ++ longKey)).data 'a'
        = 1007 := by
      rw [show (snprintf1024 ("No such module: " ++ longKey)).data
            = ("No such module: ".data
                ++ List.replicate 1008 'a').take 1023 from rfl]
      rw [List.take_append_eq_append_take]
      rw [List.take_of_length_le (by decide : "No such module: ".data.length ≤ 1023)]
      rw [show (1023 - "No such module: ".data.length) = 1007 by decide]
      rw [List.take_replicate]
      rw [countChar_append]
      rw [show min 1007 1008 = 1007 by decide]
      rw [countChar_replicate]
      rw [show countChar "No such module: ".data 'a' = 0 by decide]
    have h2 : countChar longKey.data 'a' = 1008 := by
      rw [show longKey.data = List.replicate 1008 'a' from rfl]
      exact countChar_replicate 1008 'a'
    omega

/-- Claim C2 (amended): for a key absent from the builtin registry,
GetBinding (from any state reachable from a fresh context) throws the
error message snprintf leaves in its 1024-byte buffer, which contains the
key verbatim whenever the key is at most 1007 characters long, and never
returns an exports object. -/
theorem getBinding_missing (registry : String → Bool) (keys : List String)
    (k : String) (hr : registry k = false) (hlen : k.length ≤ 1007) :
    (GetBinding registry k (runCalls registry keys initState)).1
        = Except.error (snprintf1024 ("No such module: " ++ k)) ∧
    (∃ pre post : String,
      snprintf1024 ("No such module: " ++ k) = pre ++ k ++ post) ∧
    (∀ e : Nat, (GetBinding registry k (runCalls registry keys initState)).1
        ≠ Except.ok e) := by
  have hinv :=
    bindingInv_runCalls registry keys initState (bindingInv_init registry)
  have hnone :
      lookupAssoc (moduleCacheOf (runCalls registry keys initState)) k
        = none := by
    cases hl :
        lookupAssoc (moduleCacheOf (runCalls registry keys initState)) k with
    | none => rfl
    | some e =>
        have h2 := (hinv k).2.2 (by rw [hl]; rfl)
        rw [hr] at h2
        cases h2
  have hmain :
      (GetBinding registry k (runCalls registry keys initState)).1
        = Except.error (snprintf1024 ("No such module: " ++ k)) := by
    rw [getBinding_eq, hnone]
    simp [hr]
  have h16 : ("No such module: " ++ k).length = 16 + k.length := by
    show ("No such module: " ++ k).data.length = 16 + k.data.length
    rw [string_data_append, List.length_append]
    rw [show "No such module: ".data.length = 16 by decide]
  have hshort : snprintf1024 ("No such module: " ++ k)
      = "No such module: " ++ k := by
    apply snprintf1024_short
    omega
  refine ⟨hmain, ⟨"No such module: ", "", ?_⟩, ?_⟩
  · rw [hshort]
    exact (string_append_empty _).symm
  · intro e he
    rw [hmain] at he
    cases he

/-- Witness for getBinding_missing: the empty registry, key "foo", after
one unrelated GetBinding call. -/
theorem getBinding_missing_witness :
    ((fun _ => false : String → Bool) "foo" = false) ∧
    ("foo".length ≤ 1007) ∧
    ((GetBinding (fun _ => false) "foo"
        (runCalls (fun _ => false) ["x"] initState)).1
          = Except.error (snprintf1024 ("No such module: " ++ "foo")) ∧
     (∃ pre post : String,
        snprintf1024 ("No such module: " ++ "foo") = pre ++ "foo" ++ post) ∧
     (∀ e : Nat, (GetBinding (fun _ => false) "foo"
        (runCalls (fun _ => false) ["x"] initState)).1 ≠ Except.ok e)) :=
  ⟨rfl, by decide,
   getBinding_missing (fun _ => false) ["x"] "foo" rfl (by decide)⟩

end Sandbox

namespace Sandbox

/-- Claim C3: for an environment key whose first character is '=', the
setter leaves the OS environment unchanged while still reporting the
attempted value, and the query, when the OS reports the key exists,
reports the composite attributes ReadOnly|DontDelete|DontEnum (which
differ from the plain "exists, normal" attribute set 0). -/
theorem envSetter_eq_key_readonly (env : Env) (k v : String)
    (h : startsWithEq k = true) :
    EnvSetter env k v = (env, v) ∧
    ((lookupAssoc env k).isSome = true →
      EnvQuery env (V8Name.str k)
        = some (v8ReadOnly ||| v8DontDelete ||| v8DontEnum) ∧
      EnvQuery env (V8Name.str k) ≠ some 0) := by
  constructor
  · simp [EnvSetter, h]
  · intro hex
    constructor
    · simp [EnvQuery, hex, h]
    · simp [EnvQuery, hex, h, v8ReadOnly, v8DontDelete, v8DontEnum]

/-- Witness for envSetter_eq_key_readonly at the hidden drive-letter key
"=X:" present in a one-entry environment. -/
theorem envSetter_eq_key_readonly_witness :
    startsWithEq "=X:" = true ∧
    (EnvSetter [("=X:", "old")] "=X:" "new" = ([("=X:", "old")], "new") ∧
     ((lookupAssoc ([("=X:", "old")] : Env) "=X:").isSome = true →
       EnvQuery [("=X:", "old")] (V8Name.str "=X:")
         = some (v8ReadOnly ||| v8DontDelete ||| v8DontEnum) ∧
       EnvQuery [("=X:", "old")] (V8Name.str "=X:") ≠ some 0)) :=
  ⟨by decide, envSetter_eq_key_readonly [("=X:", "old")] "=X:" "new" (by decide)⟩

/-- Claim C5: the getter returns the undefined sentinel for a symbolic
(non-string) key; for a string key present in the OS environment it
returns the stored value, the empty string included; for an absent string
key it sets no return value at all; hence an absent key is observably
different from a key stored with the empty-string value. -/
theorem envGetter_distinguishes (env : Env) (k : String) :
    (∀ sid : Nat, EnvGetter env (V8Name.symbol sid) = some GetReturn.undef) ∧
    (∀ v : String, lookupAssoc env k = some v →
      EnvGetter env (V8Name.str k) = some (GetReturn.str v)) ∧
    (lookupAssoc env k = none → EnvGetter env (V8Name.str k) = none) ∧
    (lookupAssoc env k = none → ∀ env2 : Env, lookupAssoc env2 k = some "" →
      EnvGetter env (V8Name.str k) ≠ EnvGetter env2 (V8Name.str k)) := by
  refine ⟨fun sid => rfl, fun v hv => ?_, fun hn => ?_, fun hn env2 h2 => ?_⟩
  · simp [EnvGetter, hv]
  · simp [EnvGetter, hn]
  · simp [EnvGetter, hn, h2]

/-- Witness for envGetter_distinguishes: key "K" absent from one
environment and stored as the empty string in another. -/
theorem envGetter_distinguishes_witness :
    lookupAssoc ([("A", "x")] : Env) "K" = none ∧
    lookupAssoc ([("K", "")] : Env) "K" = some "" ∧
    EnvGetter [("A", "x")] (V8Name.str "K") = none ∧
    EnvGetter [("A", "x")] (V8Name.str "K")
      ≠ EnvGetter [("K", "")] (V8Name.str "K") :=
  ⟨by decide, by decide,
   (envGetter_distinguishes [("A", "x")] "K").2.2.1 (by decide),
   (envGetter_distinguishes [("A", "x")] "K").2.2.2 (by decide)
     [("K", "")] (by decide)⟩

/-- Claim C6: the deleter forwards the removal to the OS environment
exactly when the key is a string (a symbolic key leaves the environment
untouched), and in every case reports true. -/
theorem envDeleter_always_true (env : Env) (k : String) (sid : Nat) :
    EnvDeleter env (V8Name.str k) = (unsetAssoc env k, true) ∧
    EnvDeleter env (V8Name.symbol sid) = (env, true) ∧
    lookupAssoc (EnvDeleter env (V8Name.str k)).1 k = none ∧
    (EnvDeleter env (V8Name.str k)).2 = true ∧
    (EnvDeleter env (V8Name.symbol sid)).2 = true :=
  ⟨rfl, rfl, lookupAssoc_unsetAssoc env k, rfl, rfl⟩

/-- Claim C10: for a symbolic (non-string) key, the query reports
not-found whatever the OS environment holds, and the deleter changes
nothing in the OS environment while still reporting true. -/
theorem envSymbol_no_os_effect (env : Env) (sid : Nat) :
    EnvQuery env (V8Name.symbol sid) = none ∧
    (∀ env2 : Env, EnvQuery env2 (V8Name.symbol sid)
      = EnvQuery env (V8Name.symbol sid)) ∧
    EnvDeleter env (V8Name.symbol sid) = (env, true) :=
  ⟨rfl, fun _ => rfl, rfl⟩

end Sandbox

namespace Sandbox

theorem enumGo_spec (entries : List String) :
    ∀ envarr buf : List String, ¬ "" ∈ entries →
      enumGo entries envarr buf =
        envarr ++ buf ++ (entries.filter (fun p => !(startsWithEq p))).map keyOf := by
  induction entries with
  | nil =>
      intro envarr buf _
      cases buf with
      | nil => simp [enumGo]
      | cons b bs => simp [enumGo]
  | cons p rest ih =>
      intro envarr buf h
      have hp : ¬ p = "" := by
        intro he
        exact h (by rw [he]; exact List.mem_cons_self "" rest)
      have hrest : ¬ "" ∈ rest := fun hr => h (List.mem_cons_of_mem p hr)
      by_cases hs : startsWithEq p
      · simp [enumGo, hp, hs, ih _ _ hrest]
      · simp only [enumGo, if_neg hp, hs, Bool.false_eq_true, if_false]
        by_cases h8 : NODE_PUSH_VAL_TO_ARRAY_MAX ≤ (buf ++ [keyOf p]).length
        · simp only [h8, if_true, ih _ _ hrest]
          simp [hs, List.append_assoc]
        · simp only [h8, if_false, ih _ _ hrest]
          simp [hs, List.append_assoc]

/-- Claim C4: the enumerator returns exactly the keys of the environment
block in block order, skipping every entry whose first character is '=',
each key being the portion of the raw entry before its first '=' (or the
whole entry when it has none); the chunked buffering is invisible in the
result. The hypothesis says the block has no empty entry (an empty entry
terminates the raw double-null-separated block). -/
theorem envEnumerator_keys (block : List String) (h : ¬ "" ∈ block) :
    EnvEnumerator block
      = (block.filter (fun p => !(startsWithEq p))).map keyOf := by
  have h2 := enumGo_spec block [] [] h
  simpa [EnvEnumerator] using h2

/-- Witness for envEnumerator_keys on an eleven-entry block containing a
hidden "=" entry, an entry without '=', and enough visible entries to
force a buffer flush. -/
theorem envEnumerator_keys_witness :
    ¬ "" ∈ ["=X:=Xv", "PATH=/usr/bin", "HOME=/root", "A=1", "B=2", "C=3",
        "D=4", "E=5", "F=6", "G=7", "NOEQ"] ∧
    EnvEnumerator ["=X:=Xv", "PATH=/usr/bin", "HOME=/root", "A=1", "B=2",
        "C=3", "D=4", "E=5", "F=6", "G=7", "NOEQ"]
      = (["=X:=Xv", "PATH=/usr/bin", "HOME=/root", "A=1", "B=2", "C=3",
          "D=4", "E=5", "F=6", "G=7", "NOEQ"].filter
            (fun p => !(startsWithEq p))).map keyOf :=
  ⟨by decide,
   envEnumerator_keys ["=X:=Xv", "PATH=/usr/bin", "HOME=/root", "A=1", "B=2",
     "C=3", "D=4", "E=5", "F=6", "G=7", "NOEQ"] (by decide)⟩

end Sandbox

namespace Sandbox

theorem takeWhile_append_stop (p : Char → Bool) (l1 l2 : List Char)
    (h : l1.any (fun c => !(p c)) = true) :
    (l1 ++ l2).takeWhile p = l1.takeWhile p := by
  induction l1 with
  | nil => simp at h
  | cons c cs ih =>
      by_cases hc : p c
      · simp only [List.any_cons, hc, Bool.not_true, Bool.false_or] at h
        simp [List.takeWhile_cons, hc, ih h]
      · simp [List.takeWhile_cons, hc]

theorem paramsOf_preloadWrapper (bundle : String) :
    paramsOfWrapper (preloadWrapper bundle)
      = ["binding", "preloadPath", "require"] := by
  unfold paramsOfWrapper
  rw [show (preloadWrapper bundle).data
        = wrapperHead.data ++ (bundle.data ++ wrapperTail.data) from rfl]
  rw [takeWhile_append_stop _ _ _ (by decide)]
  decide

/-- Counterexample to claim C7 as stated: with the preload path set to
"preload.js", the wrapper function is invoked with only the two arguments
(binding, preloadPath), so its third parameter (require) is bound to
undefined; no require capability is passed. -/
theorem preload_require_param_undefined :
    (DidCreateScriptContext true "preload.js").callArgs
      = some [JsVal.bindingObj, JsVal.strv "preload.js"] ∧
    [JsVal.bindingObj, JsVal.strv "preload.js"].length = 2 ∧
    bindParam [JsVal.bindingObj, JsVal.strv "preload.js"] 2
      = JsVal.undefined := by
  refine ⟨by decide, by decide, by decide⟩

/-- Claim C7 (amended): for any bundle, the wrapper declares exactly the
parameters (binding, preloadPath, require) in that order; the wrapper is
invoked with exactly two arguments, the binding namespace object first and
the configured preload path second, so the first parameter is bound to the
binding object, the second to the preload path, and the third parameter
(require) is bound to undefined. -/
theorem preload_invocation_params (bundle preloadScript : String)
    (h : ¬ preloadScript = "") :
    paramsOfWrapper (preloadWrapper bundle)
      = ["binding", "preloadPath", "require"] ∧
    DidCreateScriptContext true preloadScript
      = ⟨true, true, some [JsVal.bindingObj, JsVal.strv preloadScript]⟩ ∧
    bindParam [JsVal.bindingObj, JsVal.strv preloadScript] 0
      = JsVal.bindingObj ∧
    bindParam [JsVal.bindingObj, JsVal.strv preloadScript] 1
      = JsVal.strv preloadScript ∧
    bindParam [JsVal.bindingObj, JsVal.strv preloadScript] 2
      = JsVal.undefined :=
  ⟨paramsOf_preloadWrapper bundle, by simp [DidCreateScriptContext, h],
   rfl, rfl, rfl⟩

/-- Witness for preload_invocation_params at a concrete bundle and path. -/
theorem preload_invocation_params_witness :
    ¬ "preload.js" = "" ∧
    (paramsOfWrapper (preloadWrapper "BUNDLE")
        = ["binding", "preloadPath", "require"] ∧
     DidCreateScriptContext true "preload.js"
        = ⟨true, true, some [JsVal.bindingObj, JsVal.strv "preload.js"]⟩ ∧
     bindParam [JsVal.bindingObj, JsVal.strv "preload.js"] 0
        = JsVal.bindingObj ∧
     bindParam [JsVal.bindingObj, JsVal.strv "preload.js"] 1
        = JsVal.strv "preload.js" ∧
     bindParam [JsVal.bindingObj, JsVal.strv "preload.js"] 2
        = JsVal.undefined) :=
  ⟨by decide, preload_invocation_params "BUNDLE" "preload.js" (by decide)⟩

/-- Claim C8: context creation for a non-main frame returns early - no
preload runs, no binding namespace is constructed, whatever preload path
is configured - and context release for a non-main frame never attempts
the onExit callback; context creation for the main frame with no
configured preload path likewise returns early. -/
theorem context_creation_gating (preloadScript : String)
    (ctx : SandboxContext) :
    DidCreateScriptContext false preloadScript = ⟨false, false, none⟩ ∧
    WillReleaseScriptContext false ctx = none ∧
    DidCreateScriptContext true "" = ⟨false, false, none⟩ :=
  ⟨rfl, rfl, rfl⟩

/-- Claim C9: InvokeIpcCallback is a silent no-op when the private channel
slot is absent or holds a non-object value; when it holds an object, the
value found under the event name is called with exactly the given
arguments (and the outcome records no return value: it is ignored). -/
theorem invokeIpcCallback_dispatch (callbackName : String)
    (args : List JsVal) :
    InvokeIpcCallback ⟨none⟩ callbackName args = InvokeOutcome.noop ∧
    (∀ tag : Nat,
      InvokeIpcCallback ⟨some (SlotValue.nonObject tag)⟩ callbackName args
        = InvokeOutcome.noop) ∧
    (∀ o : ChannelObj,
      InvokeIpcCallback ⟨some (SlotValue.object o)⟩ callbackName args
        = InvokeOutcome.called (lookupAssoc o.props callbackName) args) :=
  ⟨rfl, fun _ => rfl, fun _ => rfl⟩

end Sandbox
